import Mathlib

/-!
Shallow embedding of `src/index.js` of the training-data generator.

The program composites base document images onto background textures and
splits the outputs into `train`/`test` subdirectories.  We embed:

* the deterministic split assigner (lines 33-37): the seeded pseudo-random
  generator (the `seedrandom` library) is modelled abstractly as a function
  `String → ℤ` from the seed string to the signed 32-bit integer returned by
  `.int32()`; the post-processing (`Math.abs`, `% 10`, `/ 10`, comparison
  with the train ratio) is embedded exactly, over ℚ;
* output-file naming (line 31), with `path.parse(...).name` embedded as
  basename-without-extension and `path.join` as `/`-concatenation;
* the two compositors `centerImage` (lines 70-81) and `placeOnTransparent`
  (lines 91-118).  The raster engine (`sharp`) is opaque; we embed the
  geometry it is asked to perform: JavaScript `Math.floor` on float products
  becomes `Int.floor` over ℚ with the literal `1.2` rendered exactly as
  `6/5`, and sharp's aspect-preserving auto-height of a width-only resize is
  modelled as rounding to the nearest integer;
* the batch driver `generate` (lines 15-61) as a fold over the
  (base file × background catalog entry) pairs, threading a filesystem state
  `String → Option ℕ` mapping a path to the mtime of the file stored there;
* the command-line type validation (lines 121-134).
-/

namespace Spec2Proof

/-- The value `seed % 10 / 10` computed on line 37 from the absolute value of
the generator's 32-bit output (line 34: `Math.abs(seedrandom(name).int32())`). -/
def splitValue (z : ℤ) : ℚ := ((z.natAbs % 10 : ℕ) : ℚ) / 10

/-- Line 37: `(seed % 10 / 10 < trainRatio) ? 'train' : 'test'`. -/
def assign (z : ℤ) (trainRatio : ℚ) : String :=
  if splitValue z < trainRatio then "train" else "test"

/-- Lines 34-37 together: seed the generator with exactly the name string,
take its `.int32()` output, and bucket it. -/
def assignName (prng : String → ℤ) (name : String) (trainRatio : ℚ) : String :=
  assign (prng name) trainRatio

/-- Split a character list at every occurrence of the separator `c`. -/
def splitOnChar (c : Char) : List Char → List (List Char)
  | [] => [[]]
  | x :: xs =>
    let r := splitOnChar c xs
    if x = c then [] :: r
    else
      match r with
      | [] => [[x]]
      | y :: ys => (x :: y) :: ys

/-- Join character lists, placing the separator `c` between them. -/
def joinChar (c : Char) : List (List Char) → List Char
  | [] => []
  | [x] => x
  | x :: xs => x ++ c :: joinChar c xs

/-- The final path segment of a `/`-separated path. -/
def jsBasename (p : String) : List Char :=
  (splitOnChar '/' p.toList).getLastD p.toList

/-- The `name` field of Node's `path.parse`: basename with its last
extension removed (a lone leading dot, as in `.hidden`, is not an
extension separator). -/
def jsParseName (p : String) : String :=
  let b := jsBasename p
  let parts := splitOnChar '.' b
  if parts.length ≤ 1 then String.mk b
  else if parts.headD [] = [] ∧ parts.length = 2 then String.mk b
  else String.mk (joinChar '.' parts.dropLast)

/-- Line 31: `` `${path.parse(baseFile).name}_${i}.jpg` ``. -/
def outputFileName (baseFile : String) (i : ℕ) : String :=
  jsParseName baseFile ++ "_" ++ toString i ++ ".jpg"

/-- `path.join(options.output, subdir, name)` modelled as `/`-concatenation
(the `__dirname` prefix, common to every path, is dropped). -/
def outputFilePath (outputDir subdir name : String) : String :=
  outputDir ++ "/" ++ subdir ++ "/" ++ name

/-- Geometry of the result of `centerImage` (lines 70-81): the canvas is the
resized background; the composited overlay is the base file itself
(`baseInstance.options.input.file`), never resized, at `center` gravity. -/
structure CenterResult where
  canvasW : ℤ
  canvasH : ℤ
  overlayW : ℕ
  overlayH : ℕ
  gravity : String
deriving DecidableEq

/-- Line 75: `Math.floor(Math.max(baseMeta.width, baseMeta.height) * 1.2)`. -/
def centerResizeTarget (baseW baseH : ℕ) : ℤ := ⌊(max baseW baseH : ℚ) * (6 / 5)⌋

/-- Lines 70-81: `sharp(backgroundFile).resize(target)` resizes the
background to width `target`, auto-scaling the height to preserve the
aspect ratio (modelled as rounding to nearest); the unresized base file is
then composited at center gravity, so the output canvas is the resized
background. -/
def centerImage (baseW baseH bgW bgH : ℕ) : CenterResult :=
  let target := centerResizeTarget baseW baseH
  { canvasW := target
    canvasH := round ((target : ℚ) * (bgH : ℚ) / (bgW : ℚ))
    overlayW := baseW
    overlayH := baseH
    gravity := "center" }

/-- The `transparentBoundary` record: fractions of background width/height. -/
structure Boundary where
  left : ℚ
  top : ℚ
  width : ℚ
  height : ℚ
deriving DecidableEq

/-- Geometry of the result of `placeOnTransparent` (lines 91-118): dimensions
of the resized base, dimensions of the scaled background (= the output
canvas), the composite offset, and the blend mode. -/
structure EmbedResult where
  resizedBaseW : ℤ
  resizedBaseH : ℤ
  scaledBgW : ℤ
  scaledBgH : ℤ
  offsetLeft : ℤ
  offsetTop : ℤ
  blend : String
deriving DecidableEq

/-- Lines 91-118.  The base is resized to `{width: baseW, height:
floor(baseW * b.height / b.width), fit: fill}` (lines 95-101; the base's own
height is not consulted).  The scale `backgroundScale` (line 106) divides the
resized base's width — which equals the original base width — by the original
background width times the boundary's fractional width.  The background is
resized to `(floor(bgW * s), floor(bgH * s))` (line 108), and the composite
offset (lines 113-114) applies the boundary's fractional `top`/`left` to the
*scaled* background dimensions, flooring.  Blend mode is `dest-over`. -/
def placeOnTransparent (baseW baseH bgW bgH : ℕ) (b : Boundary) : EmbedResult :=
  let rbW : ℤ := (baseW : ℤ)
  let rbH : ℤ := ⌊(baseW : ℚ) * b.height / b.width⌋
  let s : ℚ := (rbW : ℚ) / ((bgW : ℚ) * b.width)
  let sbW : ℤ := ⌊(bgW : ℚ) * s⌋
  let sbH : ℤ := ⌊(bgH : ℚ) * s⌋
  { resizedBaseW := rbW
    resizedBaseH := rbH
    scaledBgW := sbW
    scaledBgH := sbH
    offsetLeft := ⌊b.left * (sbW : ℚ)⌋
    offsetTop := ⌊b.top * (sbH : ℚ)⌋
    blend := "dest-over" }

/-- A base image file: its path, intrinsic dimensions and mtime. -/
structure BaseFile where
  path : String
  width : ℕ
  height : ℕ
  mtime : ℕ
deriving DecidableEq

/-- One record of `background/background-meta.json`.  `orientation` and
`transparentBoundary` are only meaningful when `composite = "embedded"`. -/
structure BackgroundMeta where
  filename : String
  composite : String
  orientation : String
  transparentBoundary : Boundary
deriving DecidableEq

/-- Line 53: `width > height ? 'landscape' : 'portrait'`. -/
def baseOrientation (width height : ℕ) : String :=
  if width > height then "landscape" else "portrait"

/-- The filesystem visible to the driver: each path maps to the mtime of the
file stored there, or `none` when no such file exists. -/
abbrev FS := String → Option ℕ

/-- Writing a file stamps it with the given mtime. -/
def fsWrite (fs : FS) (p : String) (t : ℕ) : FS :=
  fun q => if q = p then some t else fs q

/-- Line 41: `fs.existsSync(outputFile) && fs.statSync(baseFile).mtime <=
fs.statSync(outputFile).mtime`. -/
def mtimeSkip (fs : FS) (out : String) (baseMtime : ℕ) : Bool :=
  match fs out with
  | some m => decide (baseMtime ≤ m)
  | none => false

/-- What the loop body (lines 27-58) did for one (base, background) pair. -/
inductive PairOutcome where
  | skippedMtime (outputFile : String)
  | generatedCenter (outputFile : String)
  | generatedEmbedded (outputFile : String)
  | skippedOrientation (outputFile : String)
  | generatedNothing (outputFile : String)
deriving DecidableEq

/-- An outcome that invoked a compositor and encoded an output file. -/
def isEncode : PairOutcome → Bool
  | .generatedCenter _ => true
  | .generatedEmbedded _ => true
  | _ => false

/-- Number of compositor invocations (= files encoded) in a run. -/
def encodeCount (os : List PairOutcome) : ℕ := (os.filter (fun o => isEncode o)).length

/-- Console lines produced for one outcome: line 43 prints the Skip message,
and line 58 prints the Generate message for every pair that was not skipped
by `continue` — including pairs whose composite mode matched no branch. -/
def outcomeLogs : PairOutcome → List String
  | .skippedMtime f => ["Skip " ++ f ++ " because it already exists"]
  | .generatedCenter f => ["Generate " ++ f]
  | .generatedEmbedded f => ["Generate " ++ f]
  | .skippedOrientation _ => []
  | .generatedNothing f => ["Generate " ++ f]

/-- The per-run inputs of the driver that are fixed across pairs: the seeded
generator, the train ratio (default 0.8), the output directory, and the mtime
the clock stamps on files written during this run. -/
structure Config where
  prng : String → ℤ
  trainRatio : ℚ
  outputDir : String
  clock : ℕ

/-- Line 40: the output path `<outputDir>/<train|test>/<baseName>_<i>.jpg`,
with the subdirectory chosen by the split assigner (lines 34-37) applied to
the output file name. -/
def pairOutputFile (cfg : Config) (base : BaseFile) (i : ℕ) : String :=
  let name := outputFileName base.path i
  outputFilePath cfg.outputDir (assignName cfg.prng name cfg.trainRatio) name

/-- Loop body, lines 27-58: mtime skip first; then `center` composites and
writes; `embedded` checks orientations and either skips (`continue`) or
composites and writes; any other composite value falls through both branches
touching nothing, yet still reaches the `Generate` log line. -/
def pairStep (cfg : Config) (fs : FS) (base : BaseFile) (i : ℕ)
    (meta : BackgroundMeta) : FS × PairOutcome :=
  let out := pairOutputFile cfg base i
  if mtimeSkip fs out base.mtime then (fs, .skippedMtime out)
  else if meta.composite = "center" then
    (fsWrite fs out cfg.clock, .generatedCenter out)
  else if meta.composite = "embedded" then
    if baseOrientation base.width base.height ≠ meta.orientation then
      (fs, .skippedOrientation out)
    else (fsWrite fs out cfg.clock, .generatedEmbedded out)
  else (fs, .generatedNothing out)

/-- The nested loops of lines 25-60, flattened to a list of pairs threaded
through the filesystem state. -/
def runPairs (cfg : Config) : List (BaseFile × ℕ × BackgroundMeta) → FS →
    FS × List PairOutcome
  | [], fs => (fs, [])
  | (b, i, m) :: rest, fs =>
    let st := pairStep cfg fs b i m
    let r := runPairs cfg rest st.1
    (r.1, st.2 :: r.2)

/-- Base-file-major, background-minor enumeration with each catalog entry's
position as its stable index (`Object.entries` keys of the parsed array). -/
def pairsOf (baseFiles : List BaseFile) (metas : List BackgroundMeta) :
    List (BaseFile × ℕ × BackgroundMeta) :=
  baseFiles.flatMap (fun b => metas.enum.map (fun p => (b, p.1, p.2)))

/-- Line 17: `` `bases/${options.type}/*.{png,jpg}` ``. -/
def basePattern (docType : String) : String :=
  "bases/" ++ docType ++ "/*.\x7bpng,jpg\x7d"

/-- Result of one `generate` run: final filesystem, console lines, outcomes. -/
structure GenResult where
  fs : FS
  logs : List String
  outcomes : List PairOutcome

/-- Lines 15-61: `generate`.  An empty glob result reports and returns
(lines 20-21); otherwise every (base, background) pair is processed. -/
def generate (cfg : Config) (docType : String) (baseFiles : List BaseFile)
    (metas : List BackgroundMeta) (fs : FS) : GenResult :=
  if baseFiles.isEmpty then
    { fs := fs
      logs := ["Base image not found in " ++ basePattern docType ++ "."]
      outcomes := [] }
  else
    let r := runPairs cfg (pairsOf baseFiles metas) fs
    { fs := r.1, logs := r.2.flatMap outcomeLogs, outcomes := r.2 }

/-- Lines 122-131: the `choices` list accepted for `--type`. -/
def documentTypeChoices : List String :=
  ["cashcard", "driverslicense", "driverslicense_backside", "health_insurance_card",
   "mynumber", "sample"]

/-- The supported set as the specification states it: the five types of the
JSDoc comment (line 10) and of the option's description (line 122). -/
def specDocumentTypes : List String :=
  ["cashcard", "driverslicense", "driverslicense_backside", "health_insurance_card",
   "mynumber"]

/-- Top of the program, lines 121-146: commander validates `--type` against
the `choices` list at `.parse()` and aborts before the output directories are
created and before `generate` runs; a valid type proceeds to `generate`. -/
def main (cfg : Config) (docType : String) (baseFiles : List BaseFile)
    (metas : List BackgroundMeta) (fs : FS) : Except String GenResult :=
  if docType ∈ documentTypeChoices then
    .ok (generate cfg docType baseFiles metas fs)
  else
    .error ("invalid document type: " ++ docType)

/-- A concrete empty filesystem, for witnesses. -/
def emptyFS : FS := fun _ => none

/-- A concrete configuration, for witnesses. -/
def cfg0 : Config := { prng := fun _ => 0, trainRatio := 4 / 5, outputDir := "output", clock := 10 }

/-- Between two filesystem states of one run: every path is either untouched
or has been stamped with this run's clock. -/
def FreshOver (fs fs' : FS) (t : ℕ) : Prop :=
  ∀ p, fs' p = fs p ∨ fs' p = some t

/-- The pair's output file exists and is at least as new as its base file. -/
def covered (cfg : Config) (fs : FS) (b : BaseFile) (i : ℕ) : Prop :=
  ∃ m, fs (pairOutputFile cfg b i) = some m ∧ b.mtime ≤ m

/-- A pair whose compositor branch writes a file when it is not
mtime-skipped: composite `"center"`, or `"embedded"` with matching
orientation. -/
def writeCapable (b : BaseFile) (m : BackgroundMeta) : Prop :=
  m.composite = "center" ∨
    (m.composite = "embedded" ∧ baseOrientation b.width b.height = m.orientation)

/-- C1: for every name string and every `trainRatio` in `(0,1)`, the split
assigner derives a signed 32-bit integer from the generator seeded with
exactly the name string, takes its absolute value, reduces it modulo 10,
divides by 10 obtaining a value in `[0,1)`, and returns `"train"` iff that
value is strictly below `trainRatio`, `"test"` otherwise. -/
theorem C1_split_assigner (prng : String → ℤ) (name : String) (trainRatio : ℚ)
    (h0 : 0 < trainRatio) (h1 : trainRatio < 1)
    (hbits : -(2 ^ 31) ≤ prng name ∧ prng name < 2 ^ 31) :
    0 ≤ splitValue (prng name) ∧ splitValue (prng name) < 1 ∧
      assignName prng name trainRatio =
        (if splitValue (prng name) < trainRatio then "train" else "test") := by
  refine ⟨?_, ?_, rfl⟩
  · unfold splitValue
    positivity
  · unfold splitValue
    have h : (prng name).natAbs % 10 < 10 := Nat.mod_lt _ (by norm_num)
    have h' : (((prng name).natAbs % 10 : ℕ) : ℚ) < 10 := by exact_mod_cast h
    linarith

theorem C1_split_assigner_witness :
    0 ≤ splitValue ((fun _ => (7 : ℤ)) "a") ∧ splitValue ((fun _ => (7 : ℤ)) "a") < 1 ∧
      assignName (fun _ => (7 : ℤ)) "a" (4 / 5) =
        (if splitValue ((fun _ => (7 : ℤ)) "a") < 4 / 5 then "train" else "test") :=
  C1_split_assigner (fun _ => 7) "a" (4 / 5) (by norm_num) (by norm_num)
    (by constructor <;> norm_num)

/-- C2: the bucket depends only on the generator's output for the given name
string and the ratio; two runs whose generators agree on the name produce the
same bucket — there is no hidden global state. -/
theorem C2_determinism (prng₁ prng₂ : String → ℤ) (name : String) (trainRatio : ℚ)
    (h : prng₁ name = prng₂ name) :
    assignName prng₁ name trainRatio = assignName prng₂ name trainRatio := by
  unfold assignName
  rw [h]

theorem C2_determinism_witness :
    assignName (fun _ => (3 : ℤ)) "x" (4 / 5) = assignName (fun _ => (3 : ℤ)) "x" (4 / 5) :=
  C2_determinism (fun _ => 3) (fun _ => 3) "x" (4 / 5) rfl

/-- C3 counterexample: for a square 3×3 base and a 1×2 (portrait) background,
the code resizes the background to width `⌊3 * 1.2⌋ = 3` with aspect-preserved
height 6, so the longer resulting dimension is 6, while the claim demands the
longer dimension equal `round(max(3,3) * 1.2) = 4`. -/
theorem C3_counterexample :
    ¬ (max (centerImage 3 3 1 2).canvasW (centerImage 3 3 1 2).canvasH
        = round ((max 3 3 : ℚ) * (6 / 5))) := by
  have h1 : (centerImage 3 3 1 2).canvasW = 3 := by
    show centerResizeTarget 3 3 = 3
    unfold centerResizeTarget
    rw [Int.floor_eq_iff]
    norm_num
  have h2 : (centerImage 3 3 1 2).canvasH = 6 := by
    show round ((centerResizeTarget 3 3 : ℚ) * ((2 : ℕ) : ℚ) / ((1 : ℕ) : ℚ)) = 6
    have ht : centerResizeTarget 3 3 = 3 := h1
    rw [ht, round_eq, Int.floor_eq_iff]
    norm_num
  have h3 : round ((max 3 3 : ℚ) * (6 / 5)) = 4 := by
    rw [round_eq, Int.floor_eq_iff]
    norm_num
  intro h
  rw [h1, h2, h3] at h
  norm_num at h

/-- C3 amended: the background is resized so that its *width* (not its longer
dimension) equals `⌊max(baseW, baseH) * 1.2⌋` (floor, not round), with height
auto-scaled to preserve the background's aspect ratio; the base is composited
unscaled at center gravity, and the output canvas is the resized background. -/
theorem C3_center_amended (baseW baseH bgW bgH : ℕ) (hbg : 0 < bgW) :
    (centerImage baseW baseH bgW bgH).canvasW = ⌊(max baseW baseH : ℚ) * (6 / 5)⌋ ∧
    (centerImage baseW baseH bgW bgH).canvasH =
      round (((centerImage baseW baseH bgW bgH).canvasW : ℚ) * (bgH : ℚ) / (bgW : ℚ)) ∧
    (centerImage baseW baseH bgW bgH).overlayW = baseW ∧
    (centerImage baseW baseH bgW bgH).overlayH = baseH ∧
    (centerImage baseW baseH bgW bgH).gravity = "center" :=
  ⟨rfl, rfl, rfl, rfl, rfl⟩

theorem C3_center_amended_witness :
    (centerImage 3 3 1 2).canvasW = ⌊(max 3 3 : ℚ) * (6 / 5)⌋ ∧
    (centerImage 3 3 1 2).canvasH =
      round (((centerImage 3 3 1 2).canvasW : ℚ) * ((2 : ℕ) : ℚ) / ((1 : ℕ) : ℚ)) ∧
    (centerImage 3 3 1 2).overlayW = 3 ∧
    (centerImage 3 3 1 2).overlayH = 3 ∧
    (centerImage 3 3 1 2).gravity = "center" :=
  C3_center_amended 3 3 1 2 (by norm_num)

/-- C4: the embedded compositor keeps the base's width, sets its height to
`⌊baseW * boundary.height / boundary.width⌋`, scales the background uniformly
by `s = resizedBaseW / (bgW * boundary.width)` (flooring each dimension), and
offsets the composite by `(⌊boundary.left * scaledBgW⌋, ⌊boundary.top *
scaledBgH⌋)`; on base 400×200, background 1000×800 and boundary
`{left: 0.1, top: 0.1, width: 0.5, height: 0.3}` this gives resized base
height 240, scaled background 800×640 and offset (80, 64). -/
theorem C4_embedded (baseW baseH bgW bgH : ℕ) (b : Boundary) :
    (placeOnTransparent baseW baseH bgW bgH b).resizedBaseW = (baseW : ℤ) ∧
    (placeOnTransparent baseW baseH bgW bgH b).resizedBaseH =
      ⌊(baseW : ℚ) * b.height / b.width⌋ ∧
    (placeOnTransparent baseW baseH bgW bgH b).scaledBgW =
      ⌊(bgW : ℚ) * (((placeOnTransparent baseW baseH bgW bgH b).resizedBaseW : ℚ) /
        ((bgW : ℚ) * b.width))⌋ ∧
    (placeOnTransparent baseW baseH bgW bgH b).scaledBgH =
      ⌊(bgH : ℚ) * (((placeOnTransparent baseW baseH bgW bgH b).resizedBaseW : ℚ) /
        ((bgW : ℚ) * b.width))⌋ ∧
    (placeOnTransparent baseW baseH bgW bgH b).offsetLeft =
      ⌊b.left * ((placeOnTransparent baseW baseH bgW bgH b).scaledBgW : ℚ)⌋ ∧
    (placeOnTransparent baseW baseH bgW bgH b).offsetTop =
      ⌊b.top * ((placeOnTransparent baseW baseH bgW bgH b).scaledBgH : ℚ)⌋ ∧
    placeOnTransparent 400 200 1000 800 ⟨1/10, 1/10, 1/2, 3/10⟩ =
      { resizedBaseW := 400, resizedBaseH := 240, scaledBgW := 800, scaledBgH := 640,
        offsetLeft := 80, offsetTop := 64, blend := "dest-over" } := by
  refine ⟨rfl, rfl, rfl, rfl, rfl, rfl, ?_⟩
  norm_num [placeOnTransparent]

/-- C5: for an `"embedded"` pair, the base orientation is `"landscape"` iff
width > height (`"portrait"` otherwise); when it differs from the declared
orientation the pair is skipped — the filesystem is untouched, no compositor
runs, no error is raised, and the remaining pairs are still processed. -/
theorem C5_orientation_guard (cfg : Config) (fs : FS) (base : BaseFile) (i : ℕ)
    (meta : BackgroundMeta) (rest : List (BaseFile × ℕ × BackgroundMeta))
    (hcomp : meta.composite = "embedded")
    (hmis : baseOrientation base.width base.height ≠ meta.orientation) :
    baseOrientation base.width base.height
        = (if base.width > base.height then "landscape" else "portrait") ∧
    (pairStep cfg fs base i meta).1 = fs ∧
    isEncode (pairStep cfg fs base i meta).2 = false ∧
    runPairs cfg ((base, i, meta) :: rest) fs =
      ((runPairs cfg rest fs).1,
        (pairStep cfg fs base i meta).2 :: (runPairs cfg rest fs).2) := by
  have hstep : (pairStep cfg fs base i meta).1 = fs ∧
      isEncode (pairStep cfg fs base i meta).2 = false := by
    unfold pairStep
    by_cases hm : mtimeSkip fs (pairOutputFile cfg base i) base.mtime = true
    · simp [hm, isEncode]
    · simp [hm, hcomp, hmis, isEncode]
  refine ⟨rfl, hstep.1, hstep.2, ?_⟩
  simp only [runPairs]
  rw [hstep.1]

theorem C5_orientation_guard_witness :
    baseOrientation (BaseFile.mk "bases/sample/a.png" 4 2 5).width
        (BaseFile.mk "bases/sample/a.png" 4 2 5).height
      = (if (BaseFile.mk "bases/sample/a.png" 4 2 5).width >
            (BaseFile.mk "bases/sample/a.png" 4 2 5).height then "landscape" else "portrait") ∧
    (pairStep cfg0 emptyFS (BaseFile.mk "bases/sample/a.png" 4 2 5) 0
        (BackgroundMeta.mk "bg.png" "embedded" "portrait" ⟨0, 0, 1, 1⟩)).1 = emptyFS ∧
    isEncode (pairStep cfg0 emptyFS (BaseFile.mk "bases/sample/a.png" 4 2 5) 0
        (BackgroundMeta.mk "bg.png" "embedded" "portrait" ⟨0, 0, 1, 1⟩)).2 = false ∧
    runPairs cfg0 [(BaseFile.mk "bases/sample/a.png" 4 2 5, 0,
        BackgroundMeta.mk "bg.png" "embedded" "portrait" ⟨0, 0, 1, 1⟩)] emptyFS =
      ((runPairs cfg0 [] emptyFS).1,
        (pairStep cfg0 emptyFS (BaseFile.mk "bases/sample/a.png" 4 2 5) 0
          (BackgroundMeta.mk "bg.png" "embedded" "portrait" ⟨0, 0, 1, 1⟩)).2
          :: (runPairs cfg0 [] emptyFS).2) :=
  C5_orientation_guard cfg0 emptyFS (BaseFile.mk "bases/sample/a.png" 4 2 5) 0
    (BackgroundMeta.mk "bg.png" "embedded" "portrait" ⟨0, 0, 1, 1⟩) [] rfl (by decide)

/-- C7: the output file name is the base file's name without extension,
an underscore, the catalog index, and `.jpg` — concretely, base
`license_01.png` with index 3 yields `license_01_3.jpg` — and the file is
routed to `<outputDir>/<train|test>/<name>` with the subdirectory chosen by
the split assigner applied to that name. -/
theorem C7_output_naming (cfg : Config) (base : BaseFile) (i : ℕ) :
    outputFileName "bases/driverslicense/license_01.png" 3 = "license_01_3.jpg" ∧
    pairOutputFile cfg base i =
      cfg.outputDir ++ "/" ++
        assignName cfg.prng (outputFileName base.path i) cfg.trainRatio ++ "/" ++
        outputFileName base.path i ∧
    (assignName cfg.prng (outputFileName base.path i) cfg.trainRatio = "train" ∨
      assignName cfg.prng (outputFileName base.path i) cfg.trainRatio = "test") := by
  refine ⟨by decide, rfl, ?_⟩
  unfold assignName assign
  split
  · exact Or.inl rfl
  · exact Or.inr rfl

/-- C9: with an empty base-file glob, `generate` logs the not-found message
for the document type's pattern, changes no file, produces no outcome and
raises no error. -/
theorem C9_empty_input (cfg : Config) (docType : String)
    (metas : List BackgroundMeta) (fs : FS) :
    generate cfg docType [] metas fs =
      { fs := fs
        logs := ["Base image not found in " ++ basePattern docType ++ "."]
        outcomes := [] } ∧
    encodeCount (generate cfg docType [] metas fs).outcomes = 0 :=
  ⟨rfl, rfl⟩

/-- C10: a pair whose composite mode is neither `"center"` nor `"embedded"`
(and which is not mtime-skipped) invokes no compositor and writes nothing,
yet the `Generate` progress line is still printed and no error is raised. -/
theorem C10_unknown_composite (cfg : Config) (fs : FS) (base : BaseFile) (i : ℕ)
    (meta : BackgroundMeta)
    (hc : meta.composite ≠ "center") (he : meta.composite ≠ "embedded")
    (hns : mtimeSkip fs (pairOutputFile cfg base i) base.mtime = false) :
    pairStep cfg fs base i meta = (fs, .generatedNothing (pairOutputFile cfg base i)) ∧
    outcomeLogs (pairStep cfg fs base i meta).2 =
      ["Generate " ++ pairOutputFile cfg base i] ∧
    isEncode (pairStep cfg fs base i meta).2 = false := by
  have h : pairStep cfg fs base i meta
      = (fs, .generatedNothing (pairOutputFile cfg base i)) := by
    unfold pairStep
    simp [hns, hc, he]
  exact ⟨h, by rw [h]; rfl, by rw [h]; rfl⟩

theorem C10_unknown_composite_witness :
    pairStep cfg0 emptyFS (BaseFile.mk "bases/sample/a.png" 4 2 5) 0
        (BackgroundMeta.mk "bg.png" "overlay" "landscape" ⟨0, 0, 1, 1⟩) =
      (emptyFS, .generatedNothing
        (pairOutputFile cfg0 (BaseFile.mk "bases/sample/a.png" 4 2 5) 0)) ∧
    outcomeLogs (pairStep cfg0 emptyFS (BaseFile.mk "bases/sample/a.png" 4 2 5) 0
        (BackgroundMeta.mk "bg.png" "overlay" "landscape" ⟨0, 0, 1, 1⟩)).2 =
      ["Generate " ++ pairOutputFile cfg0 (BaseFile.mk "bases/sample/a.png" 4 2 5) 0] ∧
    isEncode (pairStep cfg0 emptyFS (BaseFile.mk "bases/sample/a.png" 4 2 5) 0
        (BackgroundMeta.mk "bg.png" "overlay" "landscape" ⟨0, 0, 1, 1⟩)).2 = false :=
  C10_unknown_composite cfg0 emptyFS (BaseFile.mk "bases/sample/a.png" 4 2 5) 0
    (BackgroundMeta.mk "bg.png" "overlay" "landscape" ⟨0, 0, 1, 1⟩)
    (by decide) (by decide) rfl

/-- C8 counterexample: the value `"sample"` lies outside the set of five
document types named by the claim, yet the program accepts it: `main` with
`--type sample` proceeds into `generate` instead of failing. -/
theorem C8_counterexample :
    specDocumentTypes.contains "sample" = false ∧
    (main cfg0 "sample" [] [] emptyFS).toOption.isSome = true := by
  exact ⟨by decide, rfl⟩

/-- C8 amended: the closed set of accepted document types is the six-element
`choices` list — the claim's five plus `"sample"`; any value outside that
list is rejected as a fatal configuration error before any processing:
`main` returns an error without invoking `generate`, so no base-file
enumeration, catalog load or file write happens. -/
theorem C8_amended (cfg : Config) (docType : String) (baseFiles : List BaseFile)
    (metas : List BackgroundMeta) (fs : FS)
    (h : docType ∉ documentTypeChoices) :
    main cfg docType baseFiles metas fs =
      .error ("invalid document type: " ++ docType) := by
  unfold main
  rw [if_neg h]

theorem C8_amended_witness :
    main cfg0 "receipt" [] [] emptyFS =
      .error ("invalid document type: " ++ "receipt") :=
  C8_amended cfg0 "receipt" [] [] emptyFS (by decide)

/-- `mtimeSkip` holds exactly when the output file exists with an mtime at
least the base file's mtime (the condition of line 41). -/
theorem mtimeSkip_eq_true_iff (fs : FS) (out : String) (mt : ℕ) :
    mtimeSkip fs out mt = true ↔ ∃ m, fs out = some m ∧ mt ≤ m := by
  unfold mtimeSkip
  cases h : fs out with
  | none => simp
  | some m => simp

/-- One step leaves the filesystem untouched or writes this run's clock to
the pair's output path. -/
theorem pairStep_fs_cases (cfg : Config) (fs : FS) (b : BaseFile) (i : ℕ)
    (m : BackgroundMeta) :
    (pairStep cfg fs b i m).1 = fs ∨
      (pairStep cfg fs b i m).1 = fsWrite fs (pairOutputFile cfg b i) cfg.clock := by
  unfold pairStep
  by_cases hm : mtimeSkip fs (pairOutputFile cfg b i) b.mtime = true
  · simp [hm]
  · by_cases hc : m.composite = "center"
    · simp [hm, hc]
    · by_cases he : m.composite = "embedded"
      · by_cases ho : baseOrientation b.width b.height ≠ m.orientation
        · simp [hm, hc, he, ho]
        · simp [hm, hc, he, ho]
      · simp [hm, hc, he]

/-- A whole run only ever writes mtimes equal to its clock. -/
theorem runPairs_fresh (cfg : Config) :
    ∀ (pairs : List (BaseFile × ℕ × BackgroundMeta)) (fs : FS),
      FreshOver fs (runPairs cfg pairs fs).1 cfg.clock
  | [], _ => fun _ => Or.inl rfl
  | (b, i, m) :: rest, fs => by
    intro p
    simp only [runPairs]
    rcases pairStep_fs_cases cfg fs b i m with h1 | h1 <;> rw [h1]
    · exact runPairs_fresh cfg rest fs p
    · rcases runPairs_fresh cfg rest (fsWrite fs (pairOutputFile cfg b i) cfg.clock) p
        with h2 | h2
      · rw [h2]
        unfold fsWrite
        split
        · exact Or.inr rfl
        · exact Or.inl rfl
      · exact Or.inr h2

/-- Coverage survives further steps of the same run, provided the base is no
newer than the run's clock. -/
theorem covered_mono (cfg : Config) (fs fs' : FS) (b : BaseFile) (i : ℕ)
    (hf : FreshOver fs fs' cfg.clock) (hb : b.mtime ≤ cfg.clock)
    (hc : covered cfg fs b i) : covered cfg fs' b i := by
  obtain ⟨m, hm, hle⟩ := hc
  rcases hf (pairOutputFile cfg b i) with h | h
  · exact ⟨m, h.trans hm, hle⟩
  · exact ⟨cfg.clock, h, hb⟩

/-- Processing a write-capable pair leaves its output file covered: either
it was already fresh enough (mtime skip) or it has just been written. -/
theorem pairStep_covers (cfg : Config) (fs : FS) (b : BaseFile) (i : ℕ)
    (m : BackgroundMeta) (hb : b.mtime ≤ cfg.clock) (hw : writeCapable b m) :
    covered cfg (pairStep cfg fs b i m).1 b i := by
  by_cases hm : mtimeSkip fs (pairOutputFile cfg b i) b.mtime = true
  · have hm' := (mtimeSkip_eq_true_iff fs (pairOutputFile cfg b i) b.mtime).mp hm
    obtain ⟨mt, hmt, hle⟩ := hm'
    unfold pairStep
    simp only [hm, if_true]
    exact ⟨mt, hmt, hle⟩
  · rcases hw with hc | ⟨he, ho⟩
    · unfold pairStep
      simp only [hm, hc, if_true, if_false, Bool.false_eq_true, reduceIte]
      exact ⟨cfg.clock, by unfold fsWrite; simp, hb⟩
    · unfold pairStep
      simp only [hm, he, ho, if_true, if_false, Bool.false_eq_true, reduceIte,
        ne_eq, not_true_eq_false]
      exact ⟨cfg.clock, by unfold fsWrite; simp, hb⟩

/-- A step on a pair that is covered whenever it is write-capable changes
nothing and encodes nothing. -/
theorem pairStep_noop (cfg : Config) (fs : FS) (b : BaseFile) (i : ℕ)
    (m : BackgroundMeta) (h : writeCapable b m → covered cfg fs b i) :
    (pairStep cfg fs b i m).1 = fs ∧ isEncode (pairStep cfg fs b i m).2 = false := by
  by_cases hm : mtimeSkip fs (pairOutputFile cfg b i) b.mtime = true
  · unfold pairStep
    simp [hm, isEncode]
  · by_cases hc : m.composite = "center"
    · exact absurd ((mtimeSkip_eq_true_iff fs (pairOutputFile cfg b i) b.mtime).mpr
        (h (Or.inl hc))) hm
    · by_cases he : m.composite = "embedded"
      · by_cases ho : baseOrientation b.width b.height = m.orientation
        · exact absurd ((mtimeSkip_eq_true_iff fs (pairOutputFile cfg b i) b.mtime).mpr
            (h (Or.inr ⟨he, ho⟩))) hm
        · unfold pairStep
          simp [hm, hc, he, ho, isEncode]
      · unfold pairStep
        simp [hm, hc, he, isEncode]

/-- A pair of the enumeration comes from the base-file list. -/
theorem mem_pairsOf_base {bf : List BaseFile} {ms : List BackgroundMeta}
    {q : BaseFile × ℕ × BackgroundMeta} (hq : q ∈ pairsOf bf ms) : q.1 ∈ bf := by
  unfold pairsOf at hq
  rcases List.mem_flatMap.mp hq with ⟨b, hb, hmap⟩
  rcases List.mem_map.mp hmap with ⟨p, _, hpe⟩
  rw [← hpe]
  exact hb

/-- After a run whose clock is at least every base mtime, every write-capable
pair of the run is covered. -/
theorem runPairs_covers (cfg : Config) :
    ∀ (pairs : List (BaseFile × ℕ × BackgroundMeta)) (fs : FS),
      (∀ q ∈ pairs, (q.1).mtime ≤ cfg.clock) →
      ∀ q ∈ pairs, writeCapable q.1 q.2.2 →
        covered cfg (runPairs cfg pairs fs).1 q.1 q.2.1
  | [], _, _ => fun q hq => absurd hq (List.not_mem_nil q)
  | (b, i, m) :: rest, fs, hcl => by
    intro q hq hw
    simp only [runPairs]
    rcases List.mem_cons.mp hq with hq | hq
    · subst hq
      exact covered_mono cfg (pairStep cfg fs b i m).1 _ b i
        (runPairs_fresh cfg rest (pairStep cfg fs b i m).1)
        (hcl (b, i, m) (List.mem_cons_self _ _))
        (pairStep_covers cfg fs b i m (hcl (b, i, m) (List.mem_cons_self _ _)) hw)
    · exact runPairs_covers cfg rest (pairStep cfg fs b i m).1
        (fun r hr => hcl r (List.mem_cons_of_mem _ hr)) q hq hw

/-- A run in which every write-capable pair is already covered changes
nothing and encodes nothing. -/
theorem runPairs_noop (cfg : Config) :
    ∀ (pairs : List (BaseFile × ℕ × BackgroundMeta)) (fs : FS),
      (∀ q ∈ pairs, writeCapable q.1 q.2.2 → covered cfg fs q.1 q.2.1) →
      (runPairs cfg pairs fs).1 = fs ∧ encodeCount (runPairs cfg pairs fs).2 = 0
  | [], _, _ => ⟨rfl, rfl⟩
  | (b, i, m) :: rest, fs, h => by
    have h0 := pairStep_noop cfg fs b i m
      (fun hw => h (b, i, m) (List.mem_cons_self _ _) hw)
    have hr := runPairs_noop cfg rest fs
      (fun q hq hw => h q (List.mem_cons_of_mem _ hq) hw)
    simp only [runPairs]
    rw [h0.1]
    refine ⟨hr.1, ?_⟩
    simp only [encodeCount, List.filter_cons, h0.2]
    exact hr.2

/-- For an empty base-file list, `generate` only reports. -/
theorem generate_empty_eq (cfg : Config) (docType : String)
    (baseFiles : List BaseFile) (metas : List BackgroundMeta) (fs : FS)
    (h : baseFiles.isEmpty = true) :
    generate cfg docType baseFiles metas fs =
      { fs := fs
        logs := ["Base image not found in " ++ basePattern docType ++ "."]
        outcomes := [] } := by
  unfold generate
  simp only [h, if_true]

/-- For a nonempty base-file list, `generate` is the pair run. -/
theorem generate_run_eq (cfg : Config) (docType : String)
    (baseFiles : List BaseFile) (metas : List BackgroundMeta) (fs : FS)
    (h : baseFiles.isEmpty = false) :
    (generate cfg docType baseFiles metas fs).fs
        = (runPairs cfg (pairsOf baseFiles metas) fs).1 ∧
    (generate cfg docType baseFiles metas fs).outcomes
        = (runPairs cfg (pairsOf baseFiles metas) fs).2 := by
  unfold generate
  simp [h]

/-- C6: a pair is mtime-skipped exactly when its output file already exists
with modification time at least the base file's; and when every base mtime
is at most the run clock, a second `generate` run over the filesystem the
first run produced performs zero re-encodes and leaves every file unchanged. -/
theorem C6_incremental_idempotence (cfg : Config) (docType : String)
    (baseFiles : List BaseFile) (metas : List BackgroundMeta) (fs fsx : FS)
    (base : BaseFile) (i : ℕ) (meta : BackgroundMeta)
    (hclock : ∀ b ∈ baseFiles, b.mtime ≤ cfg.clock) :
    ((pairStep cfg fsx base i meta).2
        = PairOutcome.skippedMtime (pairOutputFile cfg base i) ↔
      ((fsx (pairOutputFile cfg base i)).isSome = true ∧
        base.mtime ≤ (fsx (pairOutputFile cfg base i)).getD 0)) ∧
    (generate cfg docType baseFiles metas
        (generate cfg docType baseFiles metas fs).fs).fs
      = (generate cfg docType baseFiles metas fs).fs ∧
    encodeCount (generate cfg docType baseFiles metas
        (generate cfg docType baseFiles metas fs).fs).outcomes = 0 := by
  have hiff : (pairStep cfg fsx base i meta).2
      = PairOutcome.skippedMtime (pairOutputFile cfg base i) ↔
      mtimeSkip fsx (pairOutputFile cfg base i) base.mtime = true := by
    constructor
    · intro h
      by_contra hm
      unfold pairStep at h
      by_cases hc : meta.composite = "center"
      · simp [hm, hc] at h
      · by_cases he : meta.composite = "embedded"
        · by_cases ho : baseOrientation base.width base.height ≠ meta.orientation
          · simp [hm, hc, he, ho] at h
          · simp [hm, hc, he, ho] at h
        · simp [hm, hc, he] at h
    · intro hm
      unfold pairStep
      simp [hm]
  have hopt : mtimeSkip fsx (pairOutputFile cfg base i) base.mtime = true ↔
      ((fsx (pairOutputFile cfg base i)).isSome = true ∧
        base.mtime ≤ (fsx (pairOutputFile cfg base i)).getD 0) := by
    unfold mtimeSkip
    cases h : fsx (pairOutputFile cfg base i) with
    | none => simp
    | some mv => simp
  refine ⟨hiff.trans hopt, ?_⟩
  cases hE : baseFiles.isEmpty with
  | true =>
    have hg2 := generate_empty_eq cfg docType baseFiles metas
      (generate cfg docType baseFiles metas fs).fs hE
    rw [hg2]
    exact ⟨rfl, rfl⟩
  | false =>
    have hcl : ∀ q ∈ pairsOf baseFiles metas, (q.1).mtime ≤ cfg.clock :=
      fun q hq => hclock q.1 (mem_pairsOf_base hq)
    have hcov := runPairs_covers cfg (pairsOf baseFiles metas) fs hcl
    have hnoop := runPairs_noop cfg (pairsOf baseFiles metas)
      (runPairs cfg (pairsOf baseFiles metas) fs).1
      (fun q hq hw => hcov q hq hw)
    have hg1 := generate_run_eq cfg docType baseFiles metas fs hE
    have hg2 := generate_run_eq cfg docType baseFiles metas
      (generate cfg docType baseFiles metas fs).fs hE
    constructor
    · rw [hg2.1, hg1.1]
      exact hnoop.1
    · rw [hg2.2, hg1.1]
      exact hnoop.2

theorem C6_incremental_idempotence_witness :
    ((pairStep cfg0 emptyFS (BaseFile.mk "bases/sample/a.png" 4 2 5) 0
        (BackgroundMeta.mk "bg.png" "center" "landscape" ⟨0, 0, 1, 1⟩)).2
        = PairOutcome.skippedMtime
            (pairOutputFile cfg0 (BaseFile.mk "bases/sample/a.png" 4 2 5) 0) ↔
      ((emptyFS (pairOutputFile cfg0 (BaseFile.mk "bases/sample/a.png" 4 2 5) 0)).isSome
          = true ∧
        (BaseFile.mk "bases/sample/a.png" 4 2 5).mtime ≤
          (emptyFS (pairOutputFile cfg0 (BaseFile.mk "bases/sample/a.png" 4 2 5) 0)).getD 0)) ∧
    (generate cfg0 "sample" [BaseFile.mk "bases/sample/a.png" 4 2 5]
        [BackgroundMeta.mk "bg.png" "center" "landscape" ⟨0, 0, 1, 1⟩]
        (generate cfg0 "sample" [BaseFile.mk "bases/sample/a.png" 4 2 5]
          [BackgroundMeta.mk "bg.png" "center" "landscape" ⟨0, 0, 1, 1⟩] emptyFS).fs).fs
      = (generate cfg0 "sample" [BaseFile.mk "bases/sample/a.png" 4 2 5]
          [BackgroundMeta.mk "bg.png" "center" "landscape" ⟨0, 0, 1, 1⟩] emptyFS).fs ∧
    encodeCount (generate cfg0 "sample" [BaseFile.mk "bases/sample/a.png" 4 2 5]
        [BackgroundMeta.mk "bg.png" "center" "landscape" ⟨0, 0, 1, 1⟩]
        (generate cfg0 "sample" [BaseFile.mk "bases/sample/a.png" 4 2 5]
          [BackgroundMeta.mk "bg.png" "center" "landscape" ⟨0, 0, 1, 1⟩] emptyFS).fs).outcomes
      = 0 :=
  C6_incremental_idempotence cfg0 "sample" [BaseFile.mk "bases/sample/a.png" 4 2 5]
    [BackgroundMeta.mk "bg.png" "center" "landscape" ⟨0, 0, 1, 1⟩] emptyFS emptyFS
    (BaseFile.mk "bases/sample/a.png" 4 2 5) 0
    (BackgroundMeta.mk "bg.png" "center" "landscape" ⟨0, 0, 1, 1⟩)
    (by intro b hb; simp at hb; rw [hb]; decide)

end Spec2Proof
